import Mathlib

/-!
Shallow embedding of `main.py` (a Game of Life implementation) and proofs
about it.

The Python program represents a board state as a list of lists of ints
(`DEAD = 0`, `LIVE = 1`), indexed `state[x][y]` with `x` ranging over
`range(width)` (the outer list) and `y` over `range(height)` (the inner
lists).  We embed states as `List (List Int)`.  Python ints are embedded
as `Int`; loop counters produced by `range` over non-negative bounds are
embedded as `Nat` where the source guarantees non-negativity.
-/

/-- `DEAD = 0` from `main.py`. -/
def DEAD : Int := 0

/-- `LIVE = 1` from `main.py`. -/
def LIVE : Int := 1

/-- `dead_state(width, height)` from `main.py`:
`[[DEAD for _ in range(height)] for _ in range(width)]`.
Python's `range(n)` is empty for `n <= 0`, which `Int.toNat` captures. -/
def dead_state (width height : Int) : List (List Int) :=
  (List.range width.toNat).map (fun _ => (List.range height.toNat).map (fun _ => DEAD))

/-- `state_width(state)` from `main.py`: `len(state)`. -/
def state_width (state : List (List Int)) : Nat :=
  state.length

/-- `state_height(state)` from `main.py`: `len(state[0])`.  The Python code
raises `IndexError` on an empty state; every in-repo caller passes a
non-empty state, for which `headD` agrees with `state[0]`. -/
def state_height (state : List (List Int)) : Nat :=
  (state.headD []).length

/-- The read `state[x1][y1]` from `main.py`.  Every read performed by the
program is bounds-checked first (`0 <= x1 < width`, `0 <= y1 < height`),
for which range `getD` with any default agrees with Python indexing. -/
def getCell (state : List (List Int)) (x y : Int) : Int :=
  (state.getD x.toNat []).getD y.toNat DEAD

/-- The write `state[x][y] = v` from `main.py` (in-bounds list assignment,
expressed functionally). -/
def setCell (state : List (List Int)) (x y : Nat) (v : Int) : List (List Int) :=
  state.set x ((state.getD x []).set y v)

/-- The neighbor-counting loop of `next_cell_value` in `main.py`:
`for x1 in range((x-1), (x+1)+1)` (i.e. over `[x-1, x, x+1]`), skipping
`x1` outside `[0, width)`; inner loop over `[y-1, y, y+1]` skipping `y1`
outside `[0, height)` and the cell itself; counting cells equal to `LIVE`. -/
def n_live_neighbors (state : List (List Int)) (x y : Int) : Nat :=
  [x - 1, x, x + 1].foldl
    (fun acc x1 =>
      if x1 < 0 ∨ (state_width state : Int) ≤ x1 then acc
      else
        [y - 1, y, y + 1].foldl
          (fun acc2 y1 =>
            if y1 < 0 ∨ (state_height state : Int) ≤ y1 then acc2
            else if x1 = x ∧ y1 = y then acc2
            else if getCell state x1 y1 = LIVE then acc2 + 1 else acc2)
          acc)
    0

/-- `next_cell_value(cell_coords, state)` from `main.py`: the neighbor
count followed by the rule branches (`<= 1` / `<= 3` / else for a LIVE
cell, `== 3` for a non-LIVE cell). -/
def next_cell_value (cell_coords : Int × Int) (state : List (List Int)) : Int :=
  let x := cell_coords.1
  let y := cell_coords.2
  let n := n_live_neighbors state x y
  if getCell state x y = LIVE then
    if n ≤ 1 then DEAD
    else if n ≤ 3 then LIVE
    else DEAD
  else
    if n = 3 then LIVE
    else DEAD

/-- `next_board_state(init_state)` from `main.py`, with the mutation made
explicit: the loop state is the pair `(init_state, next_state)`; each
iteration writes `next_state[x][y] = next_cell_value((x, y), init_state)`,
reading from the first component and writing to the second, starting from
`(init_state, dead_state(width, height))`. -/
def next_board_state_env (init_state : List (List Int)) :
    List (List Int) × List (List Int) :=
  (List.range (state_width init_state)).foldl
    (fun s x =>
      (List.range (state_height init_state)).foldl
        (fun s2 y =>
          (s2.1, setCell s2.2 x y (next_cell_value ((x : Int), (y : Int)) s2.1)))
        s)
    (init_state, dead_state (state_width init_state) (state_height init_state))

/-- The value `next_board_state` returns: the final `next_state`. -/
def next_board_state (init_state : List (List Int)) : List (List Int) :=
  (next_board_state_env init_state).2

/-!
## Reference neighbor count

`live_neighbor_count_ref` renders the spec's description of the neighbor
count: the number of LIVE cells among the 8 coordinates around `(x, y)`
(excluding `(x, y)` itself) that lie inside `[0, width) × [0, height)`.
-/

/-- The 8 candidate neighbor coordinates of `(x, y)`. -/
def candidate_neighbors (x y : Int) : List (Int × Int) :=
  [(x - 1, y - 1), (x - 1, y), (x - 1, y + 1),
   (x, y - 1), (x, y + 1),
   (x + 1, y - 1), (x + 1, y), (x + 1, y + 1)]

/-- Number of candidate neighbors of `(x, y)` that are in bounds and LIVE. -/
def live_neighbor_count_ref (state : List (List Int)) (x y : Int) : Nat :=
  (candidate_neighbors x y).countP
    (fun c => decide (0 ≤ c.1 ∧ c.1 < (state_width state : Int) ∧
      0 ≤ c.2 ∧ c.2 < (state_height state : Int) ∧ getCell state c.1 c.2 = LIVE))

/-- One inner-loop iteration of the neighbor scan, rewritten as
"accumulator plus indicator". -/
lemma body_step (c s L : Prop) [Decidable c] [Decidable s] [Decidable L] (A : Nat) :
    (if c then A else if s then A else if L then A + 1 else A)
      = A + (if ¬c ∧ ¬s ∧ L then 1 else 0) := by
  by_cases hc : c <;> by_cases hs : s <;> by_cases hL : L <;> simp [hc, hs, hL]

/-- One outer-loop iteration of the neighbor scan, rewritten as
"accumulator plus column count". -/
lemma outer_step3 (c : Prop) [Decidable c] (A n1 n2 n3 : Nat) :
    (if c then A else A + n1 + n2 + n3) = A + (if c then 0 else n1 + n2 + n3) := by
  by_cases hc : c
  · simp [hc]
  · simp [hc]; omega

/-- Pushing a column's bounds guard into its three cell indicators. -/
lemma split_col3 (c d1 d2 d3 : Prop)
    [Decidable c] [Decidable d1] [Decidable d2] [Decidable d3] :
    (if c then 0 else
      ((if d1 then (1 : Nat) else 0) + (if d2 then 1 else 0) + (if d3 then 1 else 0)))
    = (if ¬c ∧ d1 then 1 else 0) + (if ¬c ∧ d2 then 1 else 0) + (if ¬c ∧ d3 then 1 else 0) := by
  by_cases hc : c <;> simp [hc]

/-- The loop's "skip when out of range" guards express the same region as
the reference count's bounds conjunction. -/
lemma bounds_equiv (a b W H : Int) (L : Prop) :
    (¬(a < 0 ∨ W ≤ a) ∧ (¬(b < 0 ∨ H ≤ b) ∧ L)) ↔
      (0 ≤ a ∧ a < W ∧ 0 ≤ b ∧ b < H ∧ L) := by
  constructor
  · rintro ⟨h1, h2, h3⟩
    exact ⟨by omega, by omega, by omega, by omega, h3⟩
  · rintro ⟨h1, h2, h3, h4, h5⟩
    exact ⟨by omega, by omega, h5⟩

/-- The neighbor-scan loop of `next_cell_value` computes exactly the
reference neighbor count, for every state and every coordinate pair. -/
theorem n_live_eq_ref (state : List (List Int)) (x y : Int) :
    n_live_neighbors state x y = live_neighbor_count_ref state x y := by
  have hx1 : ¬ (x - 1 = x) := by omega
  have hx2 : ¬ (x + 1 = x) := by omega
  have hy1 : ¬ (y - 1 = y) := by omega
  have hy2 : ¬ (y + 1 = y) := by omega
  simp only [n_live_neighbors, List.foldl_cons, List.foldl_nil,
    body_step, outer_step3, split_col3]
  simp only [live_neighbor_count_ref, candidate_neighbors,
    List.countP_cons, List.countP_nil, decide_eq_true_eq,
    hx1, hx2, hy1, hy2, eq_self_iff_true, not_true, not_false_eq_true,
    true_and, and_true, false_and, and_false, not_false_iff,
    if_false, add_zero, bounds_equiv]
  omega

/-!
## Characterizing the step function

`next_board_state` is an imperative write-every-cell loop over a fresh
dead grid; the lemmas below characterize the grid it builds.
-/

section FoldHelpers

variable {α β γ : Type}

lemma foldl_fst_pure (B : α × β → γ → α × β) (F : α → β → γ → β)
    (hB : ∀ a b c, B (a, b) c = (a, F a b c)) :
    ∀ (l : List γ) (a : α) (b : β), l.foldl B (a, b) = (a, l.foldl (F a) b) := by
  intro l
  induction l with
  | nil => intro a b; rfl
  | cons c t ih => intro a b; simp only [List.foldl_cons, hB]; exact ih a _

lemma getD_oob (l : List α) (i : Nat) (d : α) (h : l.length ≤ i) :
    l.getD i d = d := by
  rw [List.getD_eq_getElem?_getD, List.getElem?_eq_none h]; rfl

lemma getD_set_self (l : List α) (i : Nat) (v d : α) (h : i < l.length) :
    (l.set i v).getD i d = v := by
  rw [List.getD_eq_getElem?_getD, List.getElem?_set_self h]; rfl

lemma set_getD_self (l : List α) (i : Nat) (d : α) :
    l.set i (l.getD i d) = l := by
  induction l generalizing i with
  | nil => rfl
  | cons a t ih =>
    cases i with
    | zero => rfl
    | succ j => rw [List.getD_cons_succ, List.set_cons_succ, ih]

lemma map_range_getD (f : Nat → α) (n i : Nat) (d : α) :
    ((List.range n).map f).getD i d = if i < n then f i else d := by
  by_cases h : i < n
  · rw [List.getD_eq_getElem?_getD, List.getElem?_map, List.getElem?_range h]
    simp [h]
  · rw [List.getD_eq_getElem?_getD, List.getElem?_map,
      List.getElem?_eq_none (by simpa using Nat.le_of_not_lt h)]
    simp [h]

end FoldHelpers

lemma row_fold_set (v : Nat → Int) :
    ∀ (n : Nat) (r : List Int), n ≤ r.length →
    (List.range n).foldl (fun r2 y => r2.set y (v y)) r
      = (List.range n).map v ++ r.drop n := by
  intro n
  induction n with
  | zero => intro r _; simp
  | succ m ih =>
    intro r hr
    rw [List.range_succ, List.foldl_append, List.map_append]
    simp only [List.foldl_cons, List.foldl_nil]
    rw [ih r (by omega), List.set_append]
    have hlen : ((List.range m).map v).length = m := by simp
    rw [hlen]
    simp only [Nat.lt_irrefl, if_neg, Nat.sub_self]
    rw [List.drop_eq_getElem_cons (show m < r.length by omega)]
    simp [List.set]

lemma grid_inner_fold (w : Nat → Int) (x : Nat) :
    ∀ (l : List Nat) (g : List (List Int)),
    l.foldl (fun g2 y => setCell g2 x y (w y)) g
      = g.set x (l.foldl (fun r2 y => r2.set y (w y)) (g.getD x [])) := by
  intro l
  induction l with
  | nil => intro g; exact (set_getD_self g x []).symm
  | cons y t ih =>
    intro g
    simp only [List.foldl_cons]
    by_cases hx : x < g.length
    · rw [show setCell g x y (w y) = g.set x ((g.getD x []).set y (w y)) from rfl, ih]
      rw [getD_set_self g x _ [] hx, List.set_set]
    · have h1 : setCell g x y (w y) = g := List.set_eq_of_length_le (by omega)
      rw [h1, ih, getD_oob g x [] (by omega)]
      rfl

lemma grid_outer_fold (R : Nat → List Int → List Int) :
    ∀ (n : Nat) (g : List (List Int)), n ≤ g.length →
    (List.range n).foldl (fun g2 x => g2.set x (R x (g2.getD x []))) g
      = (List.range n).map (fun x => R x (g.getD x [])) ++ g.drop n := by
  intro n
  induction n with
  | zero => intro g _; simp
  | succ m ih =>
    intro g hg
    rw [List.range_succ, List.foldl_append, List.map_append]
    simp only [List.foldl_cons, List.foldl_nil]
    rw [ih g (by omega)]
    have hlen : ((List.range m).map fun x => R x (g.getD x [])).length = m := by simp
    have hget : ((List.range m).map (fun x => R x (g.getD x [])) ++ g.drop m).getD m []
        = g.getD m [] := by
      rw [List.getD_eq_getElem?_getD, List.getElem?_append_right (by omega), hlen,
        Nat.sub_self, List.getElem?_drop, List.getD_eq_getElem?_getD, Nat.add_zero]
    rw [hget, List.set_append, hlen]
    simp only [Nat.lt_irrefl, if_neg, Nat.sub_self]
    rw [List.drop_eq_getElem_cons (show m < g.length by omega)]
    simp [List.set]

lemma dead_state_length (w h : Int) : (dead_state w h).length = w.toNat := by
  simp [dead_state]

lemma dead_state_getD (w h : Int) (i : Nat) (hi : i < w.toNat) :
    (dead_state w h).getD i [] = (List.range h.toNat).map (fun _ => DEAD) := by
  rw [dead_state, map_range_getD]
  simp [hi]

lemma next_board_state_eq_map (G : List (List Int)) :
    next_board_state G = (List.range (state_width G)).map
      (fun (x : Nat) => (List.range (state_height G)).map
        (fun (y : Nat) => next_cell_value ((x : Int), (y : Int)) G)) := by
  unfold next_board_state next_board_state_env
  rw [foldl_fst_pure _
    (fun a b x => (List.range (state_height G)).foldl
      (fun b2 y => setCell b2 x y (next_cell_value ((x : Int), (y : Int)) a)) b)
    (fun a b x => foldl_fst_pure _ _ (fun _ _ _ => rfl) _ a b)]
  simp only [grid_inner_fold]
  rw [grid_outer_fold
    (fun x r => (List.range (state_height G)).foldl
      (fun r2 y => r2.set y (next_cell_value ((x : Int), (y : Int)) G)) r)
    (state_width G) (dead_state (state_width G) (state_height G))
    (by rw [dead_state_length, Int.toNat_natCast])]
  have hdrop : (dead_state (state_width G : Int) (state_height G : Int)).drop
      (state_width G) = [] :=
    List.drop_eq_nil_of_le (by rw [dead_state_length, Int.toNat_natCast])
  rw [hdrop, List.append_nil]
  apply List.map_congr_left
  intro x hx
  rw [List.mem_range] at hx
  rw [dead_state_getD _ _ _ (by rwa [Int.toNat_natCast])]
  rw [Int.toNat_natCast]
  rw [row_fold_set _ _ _ (by simp)]
  have h2 : ((List.range (state_height G)).map (fun _ => DEAD)).drop (state_height G) = [] :=
    List.drop_eq_nil_of_le (by simp)
  rw [h2, List.append_nil]

lemma getCell_next (G : List (List Int)) (x y : Int)
    (hx0 : 0 ≤ x) (hxW : x < (state_width G : Int))
    (hy0 : 0 ≤ y) (hyH : y < (state_height G : Int)) :
    getCell (next_board_state G) x y = next_cell_value (x, y) G := by
  rw [next_board_state_eq_map]
  unfold getCell
  rw [map_range_getD, if_pos (by omega : x.toNat < state_width G)]
  rw [map_range_getD, if_pos (by omega : y.toNat < state_height G)]
  rw [Int.toNat_of_nonneg hx0, Int.toNat_of_nonneg hy0]

lemma next_board_state_width (G : List (List Int)) :
    state_width (next_board_state G) = state_width G := by
  rw [next_board_state_eq_map]
  unfold state_width
  simp

lemma next_board_state_height (G : List (List Int)) :
    state_height (next_board_state G) = state_height G := by
  rw [next_board_state_eq_map]
  cases hW : state_width G with
  | zero =>
    have hG : G = [] := List.length_eq_zero.mp hW
    subst hG
    rfl
  | succ n =>
    rw [List.range_succ_eq_map, List.map_cons]
    show ((List.range (state_height G)).map _).length = _
    simp

lemma getCell_dead (w h : Int) (x y : Int) :
    getCell (dead_state w h) x y = DEAD := by
  unfold getCell dead_state
  rw [map_range_getD]
  by_cases hx : x.toNat < w.toNat
  · rw [if_pos hx, map_range_getD]
    by_cases hy : y.toNat < h.toNat
    · rw [if_pos hy]
    · rw [if_neg hy]
  · rw [if_neg hx, List.getD_nil]

lemma dead_state_height (w h : Int) (hw : 0 < w) :
    state_height (dead_state w h) = h.toNat := by
  unfold state_height dead_state
  have h1 : w.toNat = (w.toNat - 1) + 1 := by omega
  rw [h1, List.range_succ_eq_map, List.map_cons]
  simp

lemma n_live_dead (w h : Int) (x y : Int) :
    n_live_neighbors (dead_state w h) x y = 0 := by
  rw [n_live_eq_ref]
  unfold live_neighbor_count_ref
  rw [List.countP_eq_zero]
  intro a _
  simp [getCell_dead, DEAD, LIVE]

lemma ncv_dead (w h : Int) (c : Int × Int) :
    next_cell_value c (dead_state w h) = DEAD := by
  simp only [next_cell_value, n_live_dead, getCell_dead]
  norm_num [DEAD, LIVE]

/-- C6: for all integers `w > 0` and `h > 0`, stepping the all-dead
`w x h` grid yields the very same all-dead grid — the all-dead grid is a
fixed point of `next_board_state`. -/
theorem dead_grid_fixed_point (w h : Int) (hw : 0 < w) (hh : 0 < h) :
    next_board_state (dead_state w h) = dead_state w h := by
  rw [next_board_state_eq_map]
  have h1 : state_width (dead_state w h) = w.toNat := dead_state_length w h
  have h2 : state_height (dead_state w h) = h.toNat := dead_state_height w h hw
  rw [h1, h2]
  conv_rhs => unfold dead_state
  apply List.map_congr_left
  intro x _
  apply List.map_congr_left
  intro y _
  exact ncv_dead w h _

/-- C1: for every rectangular non-empty grid of DEAD/LIVE cells and every
in-bounds cell `(x, y)`: a LIVE cell becomes DEAD in `next_board_state`'s
output when its live-neighbor count is at most 1, stays LIVE when the
count is 2 or 3, and becomes DEAD when the count is at least 4; a DEAD
cell becomes LIVE exactly when its live-neighbor count equals 3. -/
theorem next_cell_rule_correct (G : List (List Int))
    (hne : G ≠ [])
    (hrect : ∀ row ∈ G, row.length = state_height G)
    (hvals : ∀ row ∈ G, ∀ v ∈ row, v = DEAD ∨ v = LIVE)
    (x y : Int)
    (hx0 : 0 ≤ x) (hxW : x < (state_width G : Int))
    (hy0 : 0 ≤ y) (hyH : y < (state_height G : Int)) :
    (getCell G x y = LIVE →
      ((live_neighbor_count_ref G x y ≤ 1 → getCell (next_board_state G) x y = DEAD) ∧
       ((live_neighbor_count_ref G x y = 2 ∨ live_neighbor_count_ref G x y = 3) →
          getCell (next_board_state G) x y = LIVE) ∧
       (4 ≤ live_neighbor_count_ref G x y → getCell (next_board_state G) x y = DEAD))) ∧
    (getCell G x y = DEAD →
      (getCell (next_board_state G) x y = LIVE ↔ live_neighbor_count_ref G x y = 3)) := by
  rw [getCell_next G x y hx0 hxW hy0 hyH]
  simp only [next_cell_value, n_live_eq_ref]
  constructor
  · intro hL
    rw [if_pos hL]
    refine ⟨fun h1 => ?_, fun h2 => ?_, fun h3 => ?_⟩
    · rw [if_pos h1]
    · rw [if_neg (by omega), if_pos (by omega)]
    · rw [if_neg (by omega), if_neg (by omega)]
  · intro hD
    rw [if_neg (by rw [hD]; norm_num [DEAD, LIVE])]
    constructor
    · intro hL
      by_contra hne3
      rw [if_neg hne3] at hL
      norm_num [DEAD, LIVE] at hL
    · intro h3
      rw [if_pos h3]

/-- C2: the live-neighbor count used by `next_cell_value` equals the
number of LIVE cells among the 8 surrounding coordinates that lie inside
`[0, width) x [0, height)` (out-of-range coordinates skipped, no
wraparound); in particular, for any grid with width and height at least 2
the corner `(0,0)` counts exactly its 3 in-bounds candidate neighbors
`(0,1)`, `(1,0)`, `(1,1)`. -/
theorem neighbor_count_matches_ref :
    (∀ (state : List (List Int)) (x y : Int),
      n_live_neighbors state x y = live_neighbor_count_ref state x y) ∧
    (∀ state : List (List Int), 2 ≤ state_width state → 2 ≤ state_height state →
      n_live_neighbors state 0 0 =
        ([((0 : Int), (1 : Int)), (1, 0), (1, 1)].countP
          (fun c => decide (getCell state c.1 c.2 = LIVE)))) := by
  refine ⟨n_live_eq_ref, fun state hW hH => ?_⟩
  rw [n_live_eq_ref]
  have h1 : (0 : Int) < (state_width state : Int) := by exact_mod_cast by omega
  have h2 : (1 : Int) < (state_width state : Int) := by exact_mod_cast by omega
  have h3 : (0 : Int) < (state_height state : Int) := by exact_mod_cast by omega
  have h4 : (1 : Int) < (state_height state : Int) := by exact_mod_cast by omega
  unfold live_neighbor_count_ref candidate_neighbors
  norm_num [List.countP_cons, h1, h2, h3, h4]

/-- C4: for every grid `G` (a fortiori every rectangular non-empty one),
the grid returned by `next_board_state` has the same `state_width` and
the same `state_height` as `G`. -/
theorem step_preserves_dimensions (G : List (List Int)) :
    state_width (next_board_state G) = state_width G ∧
    state_height (next_board_state G) = state_height G :=
  ⟨next_board_state_width G, next_board_state_height G⟩

/-- C5: `next_board_state` never writes to its input.  In the embedding
the loop state is the pair `(init_state, next_state)` and every iteration
writes only the second component, so the `init_state` component carried
through the whole loop is the unchanged input grid: every cell of `G`
still holds its original value after the call, and the returned grid is
the freshly built second component. -/
theorem step_leaves_input_unchanged (G : List (List Int)) :
    (next_board_state_env G).1 = G := by
  unfold next_board_state_env
  rw [foldl_fst_pure _
    (fun a b x => (List.range (state_height G)).foldl
      (fun b2 y => setCell b2 x y (next_cell_value ((x : Int), (y : Int)) a)) b)
    (fun a b x => foldl_fst_pure _ _ (fun _ _ _ => rfl) _ a b)]

/-- C3: on the 5 x 5 grid that is LIVE exactly at `(1,2)`, `(2,2)`,
`(3,2)` (rows are the first index `x`, so these are the middle three
entries of column `y = 2`), one `next_board_state` yields the grid LIVE
exactly at `(2,1)`, `(2,2)`, `(2,3)`, and a second application returns
the original grid — the blinker oscillates with period 2. -/
theorem blinker_period_two :
    next_board_state [[0,0,0,0,0],[0,0,1,0,0],[0,0,1,0,0],[0,0,1,0,0],[0,0,0,0,0]]
        = [[0,0,0,0,0],[0,0,0,0,0],[0,1,1,1,0],[0,0,0,0,0],[0,0,0,0,0]] ∧
    next_board_state [[0,0,0,0,0],[0,0,0,0,0],[0,1,1,1,0],[0,0,0,0,0],[0,0,0,0,0]]
        = [[0,0,0,0,0],[0,0,1,0,0],[0,0,1,0,0],[0,0,1,0,0],[0,0,0,0,0]] := by
  constructor <;> decide

/-- Pointwise normalization of an arbitrary integer grid into the
DEAD/LIVE domain: every cell equal to `LIVE` stays `LIVE`, every other
value becomes `DEAD` (statement device for C10). -/
def normalize_grid (G : List (List Int)) : List (List Int) :=
  G.map (fun row => row.map (fun v => if v = LIVE then LIVE else DEAD))

lemma normalize_width (G : List (List Int)) :
    state_width (normalize_grid G) = state_width G := by
  simp [normalize_grid, state_width]

lemma normalize_height (G : List (List Int)) :
    state_height (normalize_grid G) = state_height G := by
  cases G with
  | nil => rfl
  | cons r t => simp [normalize_grid, state_height]

lemma getCell_normalize (G : List (List Int)) (x y : Int) :
    getCell (normalize_grid G) x y
      = if getCell G x y = LIVE then LIVE else DEAD := by
  unfold getCell normalize_grid
  have h1 : (G.map (fun row => row.map (fun v => if v = LIVE then LIVE else DEAD))).getD
      x.toNat [] = (G.getD x.toNat []).map (fun v => if v = LIVE then LIVE else DEAD) := by
    rw [List.getD_eq_getElem?_getD, List.getElem?_map, List.getD_eq_getElem?_getD]
    cases G[x.toNat]? <;> rfl
  rw [h1]
  have h2 : ∀ r : List Int,
      (r.map (fun v => if v = LIVE then LIVE else DEAD)).getD y.toNat DEAD
        = if r.getD y.toNat DEAD = LIVE then LIVE else DEAD := by
    intro r
    rw [List.getD_eq_getElem?_getD, List.getElem?_map,
      List.getD_eq_getElem?_getD (l := r)]
    cases r[y.toNat]? with
    | none => norm_num [DEAD, LIVE]
    | some v => rfl
  exact h2 _

lemma getCell_normalize_live_iff (G : List (List Int)) (x y : Int) :
    getCell (normalize_grid G) x y = LIVE ↔ getCell G x y = LIVE := by
  rw [getCell_normalize]
  by_cases h : getCell G x y = LIVE
  · simp [h]
  · simp [h, DEAD, LIVE]

lemma n_live_normalize (G : List (List Int)) (x y : Int) :
    n_live_neighbors (normalize_grid G) x y = n_live_neighbors G x y := by
  rw [n_live_eq_ref, n_live_eq_ref]
  unfold live_neighbor_count_ref
  apply List.countP_congr
  intro c _
  simp only [decide_eq_true_eq, normalize_width, normalize_height,
    getCell_normalize_live_iff]

lemma ncv_normalize (G : List (List Int)) (c : Int × Int) :
    next_cell_value c (normalize_grid G) = next_cell_value c G := by
  simp only [next_cell_value, n_live_normalize]
  by_cases h : getCell G c.1 c.2 = LIVE
  · rw [if_pos ((getCell_normalize_live_iff G c.1 c.2).mpr h), if_pos h]
  · rw [if_neg (fun hc => h ((getCell_normalize_live_iff G c.1 c.2).mp hc)), if_neg h]

lemma next_board_state_normalize (G : List (List Int)) :
    next_board_state (normalize_grid G) = next_board_state G := by
  rw [next_board_state_eq_map, next_board_state_eq_map,
    normalize_width, normalize_height]
  apply List.map_congr_left
  intro x _
  apply List.map_congr_left
  intro y _
  exact ncv_normalize G _

lemma ncv_dead_or_live (c : Int × Int) (G : List (List Int)) :
    next_cell_value c G = DEAD ∨ next_cell_value c G = LIVE := by
  simp only [next_cell_value]
  split_ifs <;> simp

/-- C10: for every grid of arbitrary integer cells, every cell of
`next_board_state`'s output is exactly DEAD or LIVE; and any input value
other than LIVE behaves as DEAD both in the neighbor count and in the
rule branch, so the step of `G` equals the step of its DEAD/LIVE
normalization. -/
theorem step_normalizes_cells (G : List (List Int)) :
    (∀ row ∈ next_board_state G, ∀ v ∈ row, v = DEAD ∨ v = LIVE) ∧
    next_board_state G = next_board_state (normalize_grid G) ∧
    (∀ x y : Int, n_live_neighbors G x y = n_live_neighbors (normalize_grid G) x y) := by
  refine ⟨?_, (next_board_state_normalize G).symm,
    fun x y => (n_live_normalize G x y).symm⟩
  intro row hrow v hv
  rw [next_board_state_eq_map] at hrow
  rw [List.mem_map] at hrow
  obtain ⟨a, _, ha⟩ := hrow
  rw [← ha, List.mem_map] at hv
  obtain ⟨b, _, hb⟩ := hv
  rw [← hb]
  exact ncv_dead_or_live _ G

/-- C9 counterexample: the claim says `dead_state` rejects non-positive
dimensions with a construction failure, but `dead_state` has no error
path at all: at width 0 (or negative width) it returns the empty grid,
and at height 0 it returns a grid of empty rows, all as ordinary return
values. -/
theorem dead_state_returns_grid_on_nonpositive :
    dead_state 0 3 = [] ∧ dead_state (-2) 3 = [] ∧ dead_state 3 0 = [[], [], []] := by
  decide

/-- C9 (amended): `dead_state` performs no validation and never signals a
failure: for any integer dimensions it returns `max(width, 0)` rows of
`max(height, 0)` DEAD cells each — so for `width <= 0` it returns the
empty grid rather than rejecting, and for positive dimensions it returns
the all-DEAD `width x height` grid as the claim's success case states. -/
theorem dead_state_no_validation (w h : Int) :
    (dead_state w h).length = w.toNat ∧
    (∀ row ∈ dead_state w h, row.length = h.toNat ∧ ∀ v ∈ row, v = DEAD) ∧
    (w ≤ 0 → dead_state w h = []) ∧
    (0 < w → 0 < h →
      state_width (dead_state w h) = w.toNat ∧
      state_height (dead_state w h) = h.toNat) := by
  refine ⟨dead_state_length w h, ?_, ?_, fun hw _hh => ⟨dead_state_length w h,
    dead_state_height w h hw⟩⟩
  · intro row hrow
    rw [dead_state, List.mem_map] at hrow
    obtain ⟨a, _, ha⟩ := hrow
    constructor
    · rw [← ha]; simp
    · intro v hv
      rw [← ha, List.mem_map] at hv
      obtain ⟨b, _, hb⟩ := hv
      exact hb.symm
  · intro hw
    unfold dead_state
    rw [show w.toNat = 0 by omega]
    rfl

/-!
## File loading and rendering

`load_board_state` in `main.py` reads a file, strips each line of trailing
whitespace, and parses characters with Python's `int(...)`; `render`
builds display lines from a state.  We embed the pure content: the loader
takes the file's lines (the strings `readlines` yields, without the I/O),
and the renderer returns the list of display lines (the printing is I/O).
Python exceptions are embedded as `Except` errors.
-/

/-- The Python exceptions that `load_board_state` and `render` can raise:
`IndexError` (list subscript out of range), `ValueError` (from `int(...)`
on a non-digit), `KeyError` (from the `display_as` dict lookup). -/
inductive PyError : Type
  | indexError : PyError
  | valueError : PyError
  | keyError : PyError
deriving DecidableEq

/-- The characters Python's `str.rstrip()` (and `str.isspace()`) treats
as whitespace: code points 9-13 (tab, newline, vertical tab, form feed,
carriage return), 28-31 (file/group/record/unit separators), 32 (space),
133 (next line), 160 (no-break space), and the Unicode space/line/
paragraph separators 0x1680, 0x2000-0x200A, 0x2028, 0x2029, 0x202F,
0x205F, 0x3000. -/
def py_isspace (c : Char) : Bool :=
  decide ((9 ≤ c.toNat ∧ c.toNat ≤ 13) ∨ (28 ≤ c.toNat ∧ c.toNat ≤ 32) ∨
    c.toNat = 133 ∨ c.toNat = 160 ∨ c.toNat = 0x1680 ∨
    (0x2000 ≤ c.toNat ∧ c.toNat ≤ 0x200A) ∨ c.toNat = 0x2028 ∨
    c.toNat = 0x2029 ∨ c.toNat = 0x202F ∨ c.toNat = 0x205F ∨ c.toNat = 0x3000)

/-- Python's `l.rstrip()` from `load_board_state`: remove trailing
whitespace characters from a line. -/
def py_rstrip (l : List Char) : List Char :=
  (l.reverse.dropWhile py_isspace).reverse

/-- The first code points of the runs of Unicode decimal digits (general
category `Nd`, Unicode 15.0, as used by CPython's `int()`); every run is
10 consecutive code points whose digit values are 0 through 9. -/
def py_digit_ranges : List Nat :=
  [0x0030, 0x0660, 0x06F0, 0x07C0, 0x0966, 0x09E6, 0x0A66, 0x0AE6, 0x0B66,
   0x0BE6, 0x0C66, 0x0CE6, 0x0D66, 0x0DE6, 0x0E50, 0x0ED0, 0x0F20, 0x1040,
   0x1090, 0x17E0, 0x1810, 0x1946, 0x19D0, 0x1A80, 0x1A90, 0x1B50, 0x1BB0,
   0x1C40, 0x1C50, 0xA620, 0xA8D0, 0xA900, 0xA9D0, 0xA9F0, 0xAA50, 0xABF0,
   0xFF10, 0x104A0, 0x10D30, 0x11066, 0x110F0, 0x11136, 0x111D0, 0x112F0,
   0x11450, 0x114D0, 0x11650, 0x116C0, 0x11730, 0x118E0, 0x11950, 0x11C50,
   0x11D50, 0x11DA0, 0x11F50, 0x16A60, 0x16AC0, 0x16B50, 0x1D7CE, 0x1D7D8,
   0x1D7E2, 0x1D7EC, 0x1D7F6, 0x1E140, 0x1E2F0, 0x1E4F0, 0x1E950, 0x1FBF0]

/-- The decimal-digit value of a character per Python: `some d` when the
character is a Unicode decimal digit (category `Nd`) of value `d`, `none`
otherwise. -/
def py_decimal_digit (c : Char) : Option Nat :=
  (py_digit_ranges.find? (fun s => decide (s ≤ c.toNat ∧ c.toNat < s + 10))).map
    (fun s => c.toNat - s)

/-- The digit value as an integer cell value (0 for non-digits; only ever
applied to digits in the lemmas below). -/
def py_digit_val (c : Char) : Int :=
  ((py_decimal_digit c).getD 0 : Nat)

/-- Python's `int(char)` for one character from `load_board_state`: the
digit's numeric value for any Unicode decimal digit (so `int('٣') = 3`
and `int('１') = 1`, like CPython), `ValueError` otherwise. -/
def py_int_of_char (c : Char) : Except PyError Int :=
  match py_decimal_digit c with
  | some d => Except.ok (d : Int)
  | none => Except.error PyError.valueError

/-- The assignment `board[x][y] = v` of `load_board_state`: Python raises
`IndexError` when an index is out of range (the loop indices are
non-negative, so no negative-index wraparound can occur). -/
def store_cell (board : List (List Int)) (x y : Nat) (v : Int) :
    Except PyError (List (List Int)) :=
  if x < board.length then
    if y < (board.getD x []).length then Except.ok (setCell board x y v)
    else Except.error PyError.indexError
  else Except.error PyError.indexError

/-- The inner loop of `load_board_state`:
`for y, char in enumerate(line): board[x][y] = int(char)`,
with `int` evaluated before the assignment, as in Python. -/
def load_row (x : Nat) :
    List (List Int) → Nat → List Char → Except PyError (List (List Int))
  | board, _, [] => Except.ok board
  | board, y, c :: rest =>
    match py_int_of_char c with
    | Except.error e => Except.error e
    | Except.ok v =>
      match store_cell board x y v with
      | Except.error e => Except.error e
      | Except.ok b2 => load_row x b2 (y + 1) rest

/-- The outer loop of `load_board_state`:
`for x, line in enumerate(lines): ...`. -/
def load_rows :
    List (List Int) → Nat → List (List Char) → Except PyError (List (List Int))
  | board, _, [] => Except.ok board
  | board, x, line :: rest =>
    match load_row x board 0 line with
    | Except.error e => Except.error e
    | Except.ok b2 => load_rows b2 (x + 1) rest

/-- `load_board_state` from `main.py`, applied to the file's lines:
`lines = [l.rstrip() for l in f.readlines()]`, `height = len(lines)`,
`width = len(lines[0])` (an `IndexError` on an empty file), then
`board = dead_state(height, width)` — note the swapped arguments, making
the first grid axis the file's line axis — followed by the fill loops. -/
def load_board_state (raw_lines : List (List Char)) :
    Except PyError (List (List Int)) :=
  match raw_lines.map py_rstrip with
  | [] => Except.error PyError.indexError
  | first :: rest =>
    load_rows (dead_state ((first :: rest).length : Int) (first.length : Int))
      0 (first :: rest)

/-- The dict lookup `display_as[value]` of `render`: a space for DEAD, a
full-block glyph for LIVE, and Python's `KeyError` for any other value. -/
def display_lookup (v : Int) : Except PyError Char :=
  if v = DEAD then Except.ok ' '
  else if v = LIVE then Except.ok '█'
  else Except.error PyError.keyError

/-- The inner loop of `render`: `line += display_as[state[x][y]] * 2`
over `x in range(0, state_width(state))`. -/
def render_line (state : List (List Int)) (y : Nat) :
    List Nat → List Char → Except PyError (List Char)
  | [], acc => Except.ok acc
  | x :: xs, acc =>
    match display_lookup (getCell state (x : Int) (y : Int)) with
    | Except.error e => Except.error e
    | Except.ok g => render_line state y xs (acc ++ [g, g])

/-- The outer loop of `render`: one display line per
`y in range(0, state_height(state))`. -/
def render_lines_go (state : List (List Int)) :
    List Nat → List (List Char) → Except PyError (List (List Char))
  | [], acc => Except.ok acc
  | y :: ys, acc =>
    match render_line state y (List.range (state_width state)) [] with
    | Except.error e => Except.error e
    | Except.ok line => render_lines_go state ys (acc ++ [line])

/-- `render(state)` from `main.py`, returning the list of display lines
(the source then prints them joined with newlines). -/
def render (state : List (List Int)) : Except PyError (List (List Char)) :=
  render_lines_go state (List.range (state_height state)) []

/-- The two-character glyph pair at line `r`, cell position `c` of a
rendered output. -/
def glyph_pair (rendered : List (List Char)) (r c : Nat) : List Char :=
  ((rendered.getD r []).drop (2 * c)).take 2

lemma setCell_length (b : List (List Int)) (x y : Nat) (v : Int) :
    (setCell b x y v).length = b.length := by
  simp [setCell]

lemma py_int_of_char_digit (c : Char) (d : Nat) (h : py_decimal_digit c = some d) :
    py_int_of_char c = Except.ok (d : Int) := by
  unfold py_int_of_char
  rw [h]

lemma py_int_of_char_nondigit (c : Char) (h : py_decimal_digit c = none) :
    py_int_of_char c = Except.error PyError.valueError := by
  unfold py_int_of_char
  rw [h]

lemma py_digit_val_eq (c : Char) (d : Nat) (h : py_decimal_digit c = some d) :
    py_digit_val c = (d : Int) := by
  unfold py_digit_val
  rw [h]
  rfl

lemma store_cell_ok (b : List (List Int)) (x y : Nat) (v : Int)
    (hx : x < b.length) (hy : y < (b.getD x []).length) :
    store_cell b x y v = Except.ok (setCell b x y v) := by
  unfold store_cell
  rw [if_pos hx, if_pos hy]

lemma store_cell_oob (b : List (List Int)) (x y : Nat) (v : Int)
    (hx : x < b.length) (hy : ¬ y < (b.getD x []).length) :
    store_cell b x y v = Except.error PyError.indexError := by
  unfold store_cell
  rw [if_pos hx, if_neg hy]

lemma setCell_getD_same (b : List (List Int)) (x y : Nat) (v : Int)
    (hx : x < b.length) :
    (setCell b x y v).getD x [] = (b.getD x []).set y v := by
  unfold setCell
  exact getD_set_self _ _ _ _ hx

lemma setCell_getD_other (b : List (List Int)) (x y : Nat) (v : Int)
    (i : Nat) (hix : i ≠ x) :
    (setCell b x y v).getD i [] = b.getD i [] := by
  unfold setCell
  rw [List.getD_eq_getElem?_getD, List.getElem?_set_ne (fun hh => hix hh.symm),
    ← List.getD_eq_getElem?_getD]

lemma load_row_err_nondigit (x : Nat) :
    ∀ (cs : List Char) (b : List (List Int)) (y : Nat),
    (∃ c ∈ cs, py_decimal_digit c = none) →
    ∃ e, load_row x b y cs = Except.error e := by
  intro cs
  induction cs with
  | nil =>
    rintro b y ⟨c, hc, _⟩
    simp at hc
  | cons c0 rest ih =>
    rintro b y ⟨c, hc, hnd⟩
    cases hd : py_decimal_digit c0 with
    | some d =>
      simp only [load_row, py_int_of_char_digit c0 d hd]
      cases hs : store_cell b x y (d : Int) with
      | error e => exact ⟨e, rfl⟩
      | ok b2 =>
        apply ih
        rcases List.mem_cons.mp hc with h | h
        · subst h; rw [hd] at hnd; exact Option.noConfusion hnd
        · exact ⟨c, h, hnd⟩
    | none =>
      refine ⟨PyError.valueError, ?_⟩
      simp only [load_row, py_int_of_char_nondigit c0 hd]

lemma load_row_err_overflow (x : Nat) :
    ∀ (cs : List Char) (b : List (List Int)) (y : Nat),
    x < b.length → y ≤ (b.getD x []).length →
    (b.getD x []).length < y + cs.length →
    ∃ e, load_row x b y cs = Except.error e := by
  intro cs
  induction cs with
  | nil =>
    intro b y _ h1 h2
    rw [List.length_nil] at h2
    omega
  | cons c0 rest ih =>
    intro b y hx hy hover
    rw [List.length_cons] at hover
    cases hd : py_decimal_digit c0 with
    | some d =>
      simp only [load_row, py_int_of_char_digit c0 d hd]
      by_cases hyy : y < (b.getD x []).length
      · rw [store_cell_ok b x y _ hx hyy]
        apply ih
        · rw [setCell_length]; exact hx
        · rw [setCell_getD_same b x y _ hx, List.length_set]; omega
        · rw [setCell_getD_same b x y _ hx, List.length_set]; omega
      · refine ⟨PyError.indexError, ?_⟩
        rw [store_cell_oob b x y _ hx hyy]
    | none =>
      refine ⟨PyError.valueError, ?_⟩
      simp only [load_row, py_int_of_char_nondigit c0 hd]

lemma load_row_preserves (x : Nat) :
    ∀ (cs : List Char) (b b2 : List (List Int)) (y : Nat),
    load_row x b y cs = Except.ok b2 →
    b2.length = b.length ∧ ∀ i, (b2.getD i []).length = (b.getD i []).length := by
  intro cs
  induction cs with
  | nil =>
    intro b b2 y h
    simp only [load_row] at h
    cases h
    exact ⟨rfl, fun _ => rfl⟩
  | cons c0 rest ih =>
    intro b b2 y h
    cases hp : py_int_of_char c0 with
    | error e => simp only [load_row, hp] at h; exact Except.noConfusion h
    | ok v =>
      simp only [load_row, hp] at h
      cases hs : store_cell b x y v with
      | error e => rw [hs] at h; cases h
      | ok b1 =>
        rw [hs] at h
        have hib := ih b1 b2 (y + 1) h
        have hx : x < b.length := by
          by_contra hxx
          rw [show store_cell b x y v = Except.error PyError.indexError from by
            unfold store_cell; rw [if_neg hxx]] at hs
          cases hs
        have hyy : y < (b.getD x []).length := by
          by_contra hyy
          rw [store_cell_oob b x y v hx hyy] at hs
          cases hs
        rw [store_cell_ok b x y v hx hyy] at hs
        cases hs
        refine ⟨by rw [hib.1, setCell_length], fun i => ?_⟩
        rw [hib.2 i]
        by_cases hix : i = x
        · subst hix
          rw [setCell_getD_same b i y v hx, List.length_set]
        · rw [setCell_getD_other b x y v i hix]

lemma load_rows_err_nondigit :
    ∀ (ls : List (List Char)) (b : List (List Int)) (x : Nat),
    (∃ line ∈ ls, ∃ c ∈ line, py_decimal_digit c = none) →
    ∃ e, load_rows b x ls = Except.error e := by
  intro ls
  induction ls with
  | nil =>
    rintro b x ⟨line, hl, _⟩
    simp at hl
  | cons line0 rest ih =>
    rintro b x ⟨line, hl, hc⟩
    by_cases h0 : ∃ c ∈ line0, py_decimal_digit c = none
    · obtain ⟨e, he⟩ := load_row_err_nondigit x line0 b 0 h0
      refine ⟨e, ?_⟩
      simp only [load_rows, he]
    · cases hr : load_row x b 0 line0 with
      | error e => exact ⟨e, by simp only [load_rows, hr]⟩
      | ok b2 =>
        obtain ⟨e, he⟩ := ih b2 (x + 1) (by
          rcases List.mem_cons.mp hl with h | h
          · exact absurd (h ▸ hc) h0
          · exact ⟨line, h, hc⟩)
        exact ⟨e, by simp only [load_rows, hr]; exact he⟩

lemma load_rows_err_overflow (W : Nat) :
    ∀ (ls : List (List Char)) (b : List (List Int)) (x : Nat),
    b.length = x + ls.length →
    (∀ i, i < b.length → (b.getD i []).length = W) →
    (∃ line ∈ ls, W < line.length) →
    ∃ e, load_rows b x ls = Except.error e := by
  intro ls
  induction ls with
  | nil =>
    rintro b x _ _ ⟨line, hl, _⟩
    simp at hl
  | cons line0 rest ih =>
    rintro b x hlen hW ⟨line, hl, hlong⟩
    rw [List.length_cons] at hlen
    have hxb : x < b.length := by omega
    by_cases h0 : W < line0.length
    · obtain ⟨e, he⟩ := load_row_err_overflow x line0 b 0 hxb
        (by omega) (by rw [hW x hxb]; omega)
      exact ⟨e, by simp only [load_rows, he]⟩
    · cases hr : load_row x b 0 line0 with
      | error e => exact ⟨e, by simp only [load_rows, hr]⟩
      | ok b2 =>
        have hpres := load_row_preserves x line0 b b2 0 hr
        obtain ⟨e, he⟩ := ih b2 (x + 1)
          (by rw [hpres.1]; omega)
          (fun i hi => by rw [hpres.2 i]; exact hW i (by omega))
          (by
            rcases List.mem_cons.mp hl with h | h
            · rw [← h] at h0; omega
            · exact ⟨line, h, hlong⟩)
        exact ⟨e, by simp only [load_rows, hr]; exact he⟩

lemma take_succ_set {α : Type} :
    ∀ (r : List α) (y : Nat) (v : α), y < r.length →
    (r.set y v).take (y + 1) = r.take y ++ [v] := by
  intro r
  induction r with
  | nil => intro y v h; simp at h
  | cons a t ih =>
    intro y v h
    cases y with
    | zero => rfl
    | succ j =>
      rw [List.set_cons_succ, List.take_succ_cons, List.take_succ_cons,
        ih j v (by simpa using h)]
      rfl

lemma load_row_ok (x : Nat) :
    ∀ (cs : List Char) (b : List (List Int)) (y : Nat),
    x < b.length →
    (b.getD x []).length = y + cs.length →
    (∀ c ∈ cs, (py_decimal_digit c).isSome = true) →
    load_row x b y cs
      = Except.ok (b.set x ((b.getD x []).take y ++ cs.map py_digit_val)) := by
  intro cs
  induction cs with
  | nil =>
    intro b y hx hlen _
    simp only [load_row, List.map_nil, List.append_nil]
    rw [show y = (b.getD x []).length by simpa using hlen.symm, List.take_length,
      set_getD_self]
  | cons c0 rest ih =>
    intro b y hx hlen hdig
    rw [List.length_cons] at hlen
    obtain ⟨d, hd⟩ := Option.isSome_iff_exists.mp (hdig c0 (by simp))
    have hyy : y < (b.getD x []).length := by omega
    simp only [load_row, py_int_of_char_digit c0 d hd,
      store_cell_ok b x y _ hx hyy]
    rw [ih (setCell b x y (d : Int)) (y + 1)
      (by rw [setCell_length]; exact hx)
      (by rw [setCell_getD_same b x y _ hx, List.length_set]; omega)
      (fun c hc => hdig c (List.mem_cons_of_mem _ hc))]
    unfold setCell
    rw [List.set_set, getD_set_self _ _ _ _ hx,
      take_succ_set (b.getD x []) y _ hyy, ← py_digit_val_eq c0 d hd]
    simp

lemma load_row_ok_of_le (x : Nat) :
    ∀ (cs : List Char) (b : List (List Int)) (y : Nat),
    x < b.length →
    y + cs.length ≤ (b.getD x []).length →
    (∀ c ∈ cs, (py_decimal_digit c).isSome = true) →
    ∃ b2, load_row x b y cs = Except.ok b2 := by
  intro cs
  induction cs with
  | nil => intro b y _ _ _; exact ⟨b, rfl⟩
  | cons c0 rest ih =>
    intro b y hx hle hdig
    rw [List.length_cons] at hle
    obtain ⟨d, hd⟩ := Option.isSome_iff_exists.mp (hdig c0 (by simp))
    have hyy : y < (b.getD x []).length := by omega
    simp only [load_row, py_int_of_char_digit c0 d hd,
      store_cell_ok b x y _ hx hyy]
    exact ih (setCell b x y (d : Int)) (y + 1)
      (by rw [setCell_length]; exact hx)
      (by rw [setCell_getD_same b x y _ hx, List.length_set]; omega)
      (fun c hc => hdig c (List.mem_cons_of_mem _ hc))

lemma load_rows_ok (W : Nat) :
    ∀ (ls : List (List Char)) (b : List (List Int)) (x : Nat),
    b.length = x + ls.length →
    (∀ i, i < b.length → (b.getD i []).length = W) →
    (∀ line ∈ ls, line.length = W ∧ ∀ c ∈ line, (py_decimal_digit c).isSome = true) →
    load_rows b x ls
      = Except.ok (b.take x ++ ls.map (fun line => line.map py_digit_val)) := by
  intro ls
  induction ls with
  | nil =>
    intro b x hlen _ _
    rw [List.length_nil] at hlen
    simp only [load_rows, List.map_nil, List.append_nil]
    rw [show x = b.length by omega, List.take_length]
  | cons line0 rest ih =>
    intro b x hlen hW hl
    rw [List.length_cons] at hlen
    have hxb : x < b.length := by omega
    have hline0 := hl line0 (by simp)
    have hrow := load_row_ok x line0 b 0 hxb
      (by rw [hW x hxb, hline0.1, Nat.zero_add]) hline0.2
    rw [List.take_zero, List.nil_append] at hrow
    simp only [load_rows, hrow]
    rw [ih (b.set x (line0.map py_digit_val)) (x + 1)
      (by rw [List.length_set]; omega)
      (fun i hi => by
        rw [List.length_set] at hi
        by_cases hix : i = x
        · subst hix
          rw [getD_set_self _ _ _ _ hxb, List.length_map, hline0.1]
        · rw [List.getD_eq_getElem?_getD,
            List.getElem?_set_ne (fun hh => hix hh.symm),
            ← List.getD_eq_getElem?_getD]
          exact hW i hi)
      (fun line hline => hl line (List.mem_cons_of_mem _ hline))]
    rw [take_succ_set b x _ hxb]
    simp

lemma load_rows_ok_of_le (W : Nat) :
    ∀ (ls : List (List Char)) (b : List (List Int)) (x : Nat),
    b.length = x + ls.length →
    (∀ i, i < b.length → (b.getD i []).length = W) →
    (∀ line ∈ ls, line.length ≤ W ∧ ∀ c ∈ line, (py_decimal_digit c).isSome = true) →
    ∃ b2, load_rows b x ls = Except.ok b2 := by
  intro ls
  induction ls with
  | nil => intro b x _ _ _; exact ⟨b, rfl⟩
  | cons line0 rest ih =>
    intro b x hlen hW hl
    rw [List.length_cons] at hlen
    have hxb : x < b.length := by omega
    have hline0 := hl line0 (by simp)
    obtain ⟨b1, hb1⟩ := load_row_ok_of_le x line0 b 0 hxb
      (by rw [hW x hxb]; omega) hline0.2
    have hpres := load_row_preserves x line0 b b1 0 hb1
    obtain ⟨b2, hb2⟩ := ih b1 (x + 1)
      (by rw [hpres.1]; omega)
      (fun i hi => by rw [hpres.2 i]; exact hW i (by rw [← hpres.1]; exact hi))
      (fun line hline => hl line (List.mem_cons_of_mem _ hline))
    refine ⟨b2, ?_⟩
    simp only [load_rows, hb1]
    exact hb2

lemma py_rstrip_eq_self (l : List Char) (h : ∀ c ∈ l, py_isspace c = false) :
    py_rstrip l = l := by
  unfold py_rstrip
  cases hr : l.reverse with
  | nil => rw [List.dropWhile_nil, ← hr, List.reverse_reverse]
  | cons a t =>
    have ha : a ∈ l := by rw [← List.mem_reverse, hr]; simp
    rw [List.dropWhile_cons, if_neg (by simp [h a ha]), ← hr, List.reverse_reverse]

lemma load_board_state_eq (raw : List (List Char)) (first : List Char)
    (rest : List (List Char)) (hraw : raw.map py_rstrip = first :: rest) :
    load_board_state raw
      = load_rows (dead_state (((first :: rest).length : Nat) : Int)
          ((first.length : Nat) : Int)) 0 (first :: rest) := by
  unfold load_board_state
  rw [hraw]

lemma dead_board_rows (n W i : Nat) (hi : i < ((dead_state (n : Int) (W : Int))).length) :
    ((dead_state (n : Int) (W : Int)).getD i []).length = W := by
  rw [dead_state_length, Int.toNat_natCast] at hi
  rw [dead_state_getD _ _ _ (by rwa [Int.toNat_natCast])]
  simp

lemma load_board_state_ok (raw : List (List Char)) (first : List Char)
    (rest : List (List Char))
    (hraw : raw.map py_rstrip = first :: rest)
    (huni : ∀ line ∈ first :: rest, line.length = first.length)
    (hdig : ∀ line ∈ first :: rest, ∀ c ∈ line, (py_decimal_digit c).isSome = true) :
    load_board_state raw
      = Except.ok ((first :: rest).map (fun line => line.map py_digit_val)) := by
  rw [load_board_state_eq raw first rest hraw]
  rw [load_rows_ok first.length (first :: rest) _ 0
    (by rw [dead_state_length, Int.toNat_natCast, Nat.zero_add])
    (fun i hi => dead_board_rows _ _ i hi)
    (fun line hl => ⟨huni line hl, hdig line hl⟩)]
  rw [List.take_zero, List.nil_append]

/-- C8 (corrected): `load_board_state` signals a load failure for the
empty file, for any file containing a character that is not a Unicode
decimal digit (after stripping trailing whitespace with Python's
`rstrip` semantics), and for any file in which some line is longer than
the first line; but a file whose lines consist of decimal digits and are
no longer than the first line loads without failure — in particular
digits other than `0`/`1` (ASCII or not), and lines shorter than the
first, are accepted, contrary to the claim. -/
theorem load_failure_semantics :
    (load_board_state [] = Except.error PyError.indexError) ∧
    (∀ raw : List (List Char),
      (∃ line ∈ raw.map py_rstrip, ∃ c ∈ line, py_decimal_digit c = none) →
      ∃ e, load_board_state raw = Except.error e) ∧
    (∀ (raw : List (List Char)) (first : List Char) (rest : List (List Char)),
      raw.map py_rstrip = first :: rest →
      (∃ line ∈ first :: rest, first.length < line.length) →
      ∃ e, load_board_state raw = Except.error e) ∧
    (∀ (raw : List (List Char)) (first : List Char) (rest : List (List Char)),
      raw.map py_rstrip = first :: rest →
      (∀ line ∈ first :: rest, line.length ≤ first.length ∧
        ∀ c ∈ line, (py_decimal_digit c).isSome = true) →
      ∃ b, load_board_state raw = Except.ok b) := by
  refine ⟨rfl, ?_, ?_, ?_⟩
  · intro raw hw
    cases hm : raw.map py_rstrip with
    | nil => rw [hm] at hw; simp at hw
    | cons first rest =>
      rw [load_board_state_eq raw first rest hm]
      rw [hm] at hw
      exact load_rows_err_nondigit (first :: rest) _ 0 hw
  · intro raw first rest hm hw
    rw [load_board_state_eq raw first rest hm]
    exact load_rows_err_overflow first.length (first :: rest) _ 0
      (by rw [dead_state_length, Int.toNat_natCast, Nat.zero_add])
      (fun i hi => dead_board_rows _ _ i hi) hw
  · intro raw first rest hm hl
    rw [load_board_state_eq raw first rest hm]
    exact load_rows_ok_of_le first.length (first :: rest) _ 0
      (by rw [dead_state_length, Int.toNat_natCast, Nat.zero_add])
      (fun i hi => dead_board_rows _ _ i hi) hl

/-- C8 counterexample: the claim says every malformed file (any character
other than `'0'`/`'1'`, or inconsistent line lengths) is rejected, yet the
file `"2"` loads successfully as the grid `[[2]]`, the file holding the
single Arabic-Indic digit `'٣'` (U+0663, accepted by Python's `int`)
loads successfully as `[[3]]`, and the file `"11"\n"0"` with inconsistent
line lengths loads successfully as `[[1,1],[0,0]]`. -/
theorem load_accepts_malformed_input :
    load_board_state [['2']] = Except.ok [[2]] ∧
    load_board_state [['٣']] = Except.ok [[3]] ∧
    load_board_state [['1', '1'], ['0']] = Except.ok [[1, 1], [0, 0]] := by
    refine ⟨rfl, rfl, rfl⟩

lemma display_lookup_dead : display_lookup DEAD = Except.ok ' ' := rfl

lemma display_lookup_live : display_lookup LIVE = Except.ok '█' := by
  unfold display_lookup
  rw [if_neg (by norm_num [DEAD, LIVE]), if_pos rfl]

lemma render_line_ok (state : List (List Int)) (y : Nat) :
    ∀ (xs : List Nat) (acc : List Char),
    (∀ x ∈ xs, getCell state (x : Int) (y : Int) = DEAD ∨
      getCell state (x : Int) (y : Int) = LIVE) →
    render_line state y xs acc
      = Except.ok (acc ++ xs.flatMap (fun (x : Nat) =>
          [if getCell state (x : Int) (y : Int) = LIVE then '█' else ' ',
           if getCell state (x : Int) (y : Int) = LIVE then '█' else ' '])) := by
  intro xs
  induction xs with
  | nil => intro acc _; simp [render_line]
  | cons x xs ih =>
    intro acc hok
    rcases hok x (by simp) with hD | hL
    · have hnl : ¬ getCell state (x : Int) (y : Int) = LIVE := by
        rw [hD]; norm_num [DEAD, LIVE]
      simp only [render_line, hD, display_lookup_dead]
      rw [ih (acc ++ [' ', ' ']) (fun x2 hx2 => hok x2 (by simp [hx2]))]
      rw [List.flatMap_cons, if_neg hnl]
      simp
    · simp only [render_line, hL, display_lookup_live]
      rw [ih (acc ++ ['█', '█']) (fun x2 hx2 => hok x2 (by simp [hx2]))]
      rw [List.flatMap_cons, if_pos hL]
      simp

lemma render_go_ok (state : List (List Int)) :
    ∀ (ys : List Nat) (acc : List (List Char)),
    (∀ y ∈ ys, ∀ x ∈ List.range (state_width state),
      getCell state (x : Int) (y : Int) = DEAD ∨
      getCell state (x : Int) (y : Int) = LIVE) →
    render_lines_go state ys acc
      = Except.ok (acc ++ ys.map (fun (y : Nat) =>
          (List.range (state_width state)).flatMap
          (fun (x : Nat) =>
            [if getCell state (x : Int) (y : Int) = LIVE then '█' else ' ',
             if getCell state (x : Int) (y : Int) = LIVE then '█' else ' ']))) := by
  intro ys
  induction ys with
  | nil => intro acc _; simp [render_lines_go]
  | cons y ys ih =>
    intro acc hok
    simp only [render_lines_go,
      render_line_ok state y (List.range (state_width state)) []
        (fun x hx => hok y (by simp) x hx)]
    rw [ih (acc ++ [_]) (fun y2 hy2 x hx => hok y2 (by simp [hy2]) x hx)]
    simp

lemma render_ok (state : List (List Int))
    (hok : ∀ y ∈ List.range (state_height state),
      ∀ x ∈ List.range (state_width state),
      getCell state (x : Int) (y : Int) = DEAD ∨
      getCell state (x : Int) (y : Int) = LIVE) :
    render state
      = Except.ok ((List.range (state_height state)).map
          (fun (y : Nat) => (List.range (state_width state)).flatMap
            (fun (x : Nat) =>
              [if getCell state (x : Int) (y : Int) = LIVE then '█' else ' ',
               if getCell state (x : Int) (y : Int) = LIVE then '█' else ' ']))) := by
  unfold render
  rw [render_go_ok state (List.range (state_height state)) [] hok]
  rw [List.nil_append]

lemma flatMap_pair_extract {β : Type} (p : β → Char) (d : β) :
    ∀ (l : List β) (c : Nat), c < l.length →
    ((l.flatMap (fun x => [p x, p x])).drop (2 * c)).take 2
      = [p (l.getD c d), p (l.getD c d)] := by
  intro l
  induction l with
  | nil => intro c hc; simp at hc
  | cons b t ih =>
    intro c hc
    rw [List.flatMap_cons]
    cases c with
    | zero => simp
    | succ j =>
      rw [show 2 * (j + 1) = (2 * j + 1) + 1 by ring]
      show (((p b :: p b :: t.flatMap _)).drop (2 * j + 1 + 1)).take 2 = _
      rw [List.drop_succ_cons, List.drop_succ_cons, List.getD_cons_succ]
      exact ih j (by simpa using hc)

lemma flatMap_pair_length {β : Type} (p : β → Char) :
    ∀ (l : List β), (l.flatMap (fun x => [p x, p x])).length = 2 * l.length := by
  intro l
  induction l with
  | nil => simp
  | cons b t ih => rw [List.flatMap_cons]; simp [ih]; ring

lemma range_getD (n c : Nat) (h : c < n) : (List.range n).getD c 0 = c := by
  rw [List.getD_eq_getElem?_getD, List.getElem?_range h]; rfl

lemma map_map_getCell (ls : List (List Char)) (f : Char → Int) (c r : Nat)
    (hc : c < ls.length) (hr : r < (ls.getD c []).length) :
    getCell (ls.map (fun row => row.map f)) (c : Int) (r : Int)
      = f ((ls.getD c []).getD r '0') := by
  unfold getCell
  rw [Int.toNat_natCast, Int.toNat_natCast]
  have h1 : (ls.map (fun row => row.map f)).getD c [] = (ls.getD c []).map f := by
    rw [List.getD_eq_getElem?_getD, List.getElem?_map, List.getD_eq_getElem?_getD]
    cases ls[c]? <;> rfl
  rw [h1, List.getD_eq_getElem (_) DEAD (by simpa using hr),
    List.getElem_map, List.getD_eq_getElem (_) '0' hr]

/-- C7 (amended): loading a well-formed file and rendering the result
reproduces the transpose of the file's pattern: the glyph pair at line
`r`, cell position `c` of `render`'s output is the LIVE pair exactly when
character `r` of file line `c` is `'1'`, and the space pair when it is
`'0'`; the output has `width` lines (one per character column of the
file) of `height` cell pairs each. -/
theorem render_load_transpose (raw : List (List Char)) (first : List Char)
    (rest : List (List Char))
    (hraw : raw = first :: rest)
    (huni : ∀ line ∈ raw, line.length = first.length)
    (hchars : ∀ line ∈ raw, ∀ ch ∈ line, ch = '0' ∨ ch = '1') :
    ∃ b out, load_board_state raw = Except.ok b ∧ render b = Except.ok out ∧
      out.length = first.length ∧
      (∀ l ∈ out, l.length = 2 * raw.length) ∧
      (∀ r c : Nat, r < first.length → c < raw.length →
        glyph_pair out r c
          = if (raw.getD c []).getD r '0' = '1'
            then ['█', '█'] else [' ', ' ']) := by
  have hstrip : raw.map py_rstrip = first :: rest := by
    rw [show raw.map py_rstrip = raw.map id from List.map_congr_left
      (fun line hl => py_rstrip_eq_self line (fun ch hch => by
        rcases hchars line hl ch hch with h | h <;> rw [h] <;> decide))]
    rw [List.map_id, hraw]
  have hload := load_board_state_ok raw first rest hstrip
    (by rw [← hraw]; exact huni)
    (fun line hl ch hch => by
      rcases hchars line (by rw [hraw]; exact hl) ch hch with h | h <;>
        rw [h] <;> decide)
  set b := (first :: rest).map (fun line => line.map py_digit_val) with hbdef
  have hbW : state_width b = raw.length := by
    rw [hbdef, hraw]; simp [state_width]
  have hbH : state_height b = first.length := by
    rw [hbdef]; simp [state_height]
  have hrowlen : ∀ c : Nat, c < raw.length → (raw.getD c []).length = first.length := by
    intro c hc
    rw [List.getD_eq_getElem (_) [] hc]
    exact huni _ (List.getElem_mem hc)
  have hcell : ∀ c r : Nat, c < raw.length → r < first.length →
      getCell b (c : Int) (r : Int) = py_digit_val ((raw.getD c []).getD r '0') := by
    intro c r hc hr
    rw [hbdef, ← hraw]
    exact map_map_getCell raw _ c r hc (by rw [hrowlen c hc]; exact hr)
  have hcharat : ∀ c r : Nat, c < raw.length → r < first.length →
      (raw.getD c []).getD r '0' = '0' ∨ (raw.getD c []).getD r '0' = '1' := by
    intro c r hc hr
    have hrow : raw.getD c [] ∈ raw := by
      rw [List.getD_eq_getElem (_) [] hc]
      exact List.getElem_mem hc
    have hch : (raw.getD c []).getD r '0' ∈ raw.getD c [] := by
      rw [List.getD_eq_getElem (_) '0' (by rw [hrowlen c hc]; exact hr)]
      exact List.getElem_mem _
    exact hchars _ hrow _ hch
  have hok : ∀ y ∈ List.range (state_height b), ∀ x ∈ List.range (state_width b),
      getCell b (x : Int) (y : Int) = DEAD ∨ getCell b (x : Int) (y : Int) = LIVE := by
    intro y hy x hx
    rw [List.mem_range, hbH] at hy
    rw [List.mem_range, hbW] at hx
    rw [hcell x y hx hy]
    rcases hcharat x y hx hy with h | h <;> rw [h]
    · left; decide
    · right; decide
  refine ⟨b, _, hload, render_ok b hok, ?_, ?_, ?_⟩
  · rw [hbH]; simp
  · intro l hl
    rw [List.mem_map] at hl
    obtain ⟨y, _, hy⟩ := hl
    rw [← hy, flatMap_pair_length, List.length_range, hbW]
  · intro r c hr hc
    unfold glyph_pair
    rw [map_range_getD, if_pos (by rw [hbH]; exact hr)]
    rw [flatMap_pair_extract
      (fun (x : Nat) => if getCell b (x : Int) (r : Int) = LIVE then '█' else ' ')
      0 (List.range (state_width b)) c (by rw [List.length_range, hbW]; exact hc)]
    rw [range_getD _ c (by rw [hbW]; exact hc)]
    rw [hcell c r hc hr]
    rcases hcharat c r hc hr with h | h <;> rw [h]
    · rw [if_neg (by decide), if_neg (by decide)]
    · rw [if_pos (by decide), if_pos (by decide)]

/-- C7 counterexample: for the file `"11"\n"00"`, character 1 of file
line 0 is `'1'`, but the glyph pair at line 0, cell position 1 of the
rendered output is the space pair — the render output is the transpose of
the file's pattern, not the pattern itself as the claim states. -/
theorem render_not_file_oriented :
    load_board_state [['1','1'],['0','0']] = Except.ok [[1,1],[0,0]] ∧
    render [[1,1],[0,0]] = Except.ok [['█','█',' ',' '], ['█','█',' ',' ']] ∧
    glyph_pair [['█','█',' ',' '],['█','█',' ',' ']] 0 1 = [' ',' '] ∧
    (([['1','1'],['0','0']] : List (List Char)).getD 0 []).getD 1 '0' = '1' := by
  refine ⟨rfl, rfl, rfl, rfl⟩

/-- C7 witness: the amended theorem applied to the concrete one-line file
`"10"`, whose rendering is two lines of one cell each; the glyph pair at
line 1, cell 0 is the space pair since character 1 of file line 0 is
`'0'`. -/
theorem render_load_transpose_witness :
    glyph_pair [['█','█'],[' ',' ']] 1 0 = [' ',' '] := by
  obtain ⟨b, out, hb, hout, _, _, hpair⟩ :=
    render_load_transpose [['1','0']] ['1','0'] [] rfl (by decide) (by decide)
  have h1 : load_board_state [['1','0']] = Except.ok [[(1 : Int), 0]] := rfl
  rw [h1] at hb
  have hb2 : b = [[(1 : Int), 0]] := (Except.ok.inj hb).symm
  subst hb2
  have h2 : render [[(1 : Int), 0]] = Except.ok [['█','█'],[' ',' ']] := rfl
  rw [h2] at hout
  have hout2 : out = [['█','█'],[' ',' ']] := (Except.ok.inj hout).symm
  subst hout2
  simpa using hpair 1 0 (by decide) (by decide)

/-- C8 witness: the file `"a"` (a non-digit character) fails to load. -/
theorem load_failure_semantics_witness :
    (load_board_state [['a']]).isOk = false := by
  obtain ⟨e, he⟩ := load_failure_semantics.2.1 [['a']] (by decide)
  rw [he]
  rfl

/-- C9 witness: for the positive dimensions 2 x 3, `dead_state` returns a
grid of width 2 and height 3. -/
theorem dead_state_no_validation_witness :
    state_width (dead_state 2 3) = 2 ∧ state_height (dead_state 2 3) = 3 :=
  (dead_state_no_validation 2 3).2.2.2 (by decide) (by decide)

/-- C6 witness: stepping the all-dead 2 x 3 grid returns it unchanged. -/
theorem dead_grid_fixed_point_witness :
    next_board_state (dead_state 2 3) = dead_state 2 3 :=
  dead_grid_fixed_point 2 3 (by decide) (by decide)

/-- C1 witness: in the 2 x 2 grid `[[1,1],[1,0]]` the LIVE cell `(0,0)`
has two LIVE neighbors, so it stays LIVE after one step. -/
theorem next_cell_rule_correct_witness :
    getCell (next_board_state [[1,1],[1,0]]) 0 0 = LIVE :=
  ((next_cell_rule_correct [[1,1],[1,0]] (by decide) (by decide) (by decide)
      0 0 (by decide) (by decide) (by decide) (by decide)).1 (by decide)).2.1
    (by decide)

/-- C2 witness: the corner statement applied to the concrete 2 x 2 grid
`[[1,1],[1,0]]`. -/
theorem neighbor_count_matches_ref_witness :
    n_live_neighbors [[1,1],[1,0]] 0 0
      = ([((0 : Int), (1 : Int)), (1, 0), (1, 1)].countP
          (fun c => decide (getCell [[1,1],[1,0]] c.1 c.2 = LIVE))) :=
  neighbor_count_matches_ref.2 [[1,1],[1,0]] (by decide) (by decide)

/-- C10 witness: stepping the 1 x 1 grid holding the out-of-domain value
5 produces a cell in the DEAD/LIVE domain. -/
theorem step_normalizes_cells_witness :
    (0 : Int) = DEAD ∨ (0 : Int) = LIVE :=
  (step_normalizes_cells [[(5 : Int)]]).1 [0] (by decide) 0 (by decide)
